import Mathlib

/-!
Verification of the command-orchestration scripts of the project-cache-in
repository (run_docker.py, setup_and_run_docker.py, run_docker_prod.py,
push_to_docker_hub.py, script/run_backend.py, script/setup_postgresql.py).

External interaction is abstracted by oracles: an executor of type
`Step → Bool × String` supplies each step invocation with its success flag
and captured text, a `CmdOutcome` describes what one subprocess invocation
did, and a directory listing models the filesystem for the JAR discovery
of script/run_backend.py.
-/

namespace CacheIn

/-- Step of the sequencer: name, command tokens, best-effort flag.
Created at sequence-definition time and immutable. -/
structure Step where
  name : String
  command : List String
  best_effort : Bool
deriving DecidableEq

/-- Result of one executed step; never mutated after creation. -/
structure StepResult where
  step_name : String
  succeeded : Bool
  output : String
deriving DecidableEq

/-- Aggregate outcome of running a sequence of steps. -/
structure SequenceOutcome where
  results : List StepResult
  halted_early : Bool
deriving DecidableEq

/-- StepResult constructed for step `s` under executor `exec`. -/
def mkResult (exec : Step → Bool × String) (s : Step) : StepResult :=
  { step_name := s.name, succeeded := (exec s).1, output := (exec s).2 }

/-- A step halts the sequence iff its invocation failed and the step is not
best-effort. -/
def stepHalts (exec : Step → Bool × String) (s : Step) : Bool :=
  !(exec s).1 && !s.best_effort

/-- Sequencer run: the control flow shared by FrontendDockerSetup.run
(run_docker.py), DockerComposeRunner.run_setup_and_start
(setup_and_run_docker.py) and main (run_docker_prod.py): execute steps in
declaration order; on failure of a non-best-effort step append the failed
result and return immediately; otherwise append the result and continue. -/
def runSteps (exec : Step → Bool × String) : List Step → SequenceOutcome
  | [] => { results := [], halted_early := false }
  | s :: rest =>
    if stepHalts exec s then
      { results := [mkResult exec s], halted_early := true }
    else
      { results := mkResult exec s :: (runSteps exec rest).results,
        halted_early := (runSteps exec rest).halted_early }

/-- Names of the steps actually invoked, in invocation order. -/
def runTrace (exec : Step → Bool × String) : List Step → List String
  | [] => []
  | s :: rest =>
    if stepHalts exec s then [s.name]
    else s.name :: runTrace exec rest

lemma runSteps_nil (exec : Step → Bool × String) :
    runSteps exec [] = { results := [], halted_early := false } := rfl

lemma runSteps_cons (exec : Step → Bool × String) (s : Step) (rest : List Step) :
    runSteps exec (s :: rest) =
      if stepHalts exec s then
        { results := [mkResult exec s], halted_early := true }
      else
        { results := mkResult exec s :: (runSteps exec rest).results,
          halted_early := (runSteps exec rest).halted_early } := rfl

lemma runTrace_cons (exec : Step → Bool × String) (s : Step) (rest : List Step) :
    runTrace exec (s :: rest) =
      if stepHalts exec s then [s.name] else s.name :: runTrace exec rest := rfl

/-- If no step in the list would halt, every step runs, every result is
appended, and the run completes without halting. -/
lemma runSteps_no_halt (exec : Step → Bool × String) :
    ∀ steps : List Step, (∀ s ∈ steps, stepHalts exec s = false) →
      runSteps exec steps = { results := steps.map (mkResult exec), halted_early := false } := by
  intro steps
  induction steps with
  | nil => intro _; rfl
  | cons s rest ih =>
    intro h
    have hs : stepHalts exec s = false := h s (List.mem_cons_self s rest)
    have hrest := ih (fun t ht => h t (List.mem_cons_of_mem s ht))
    simp [runSteps_cons, hs, hrest]

/-- The run halts early exactly when the list holds a failing
non-best-effort step. -/
lemma runSteps_halted_iff (exec : Step → Bool × String) :
    ∀ steps : List Step,
      (runSteps exec steps).halted_early = true ↔ ∃ s ∈ steps, stepHalts exec s = true := by
  intro steps
  induction steps with
  | nil => simp [runSteps_nil]
  | cons s rest ih =>
    by_cases hs : stepHalts exec s = true
    · simp [runSteps_cons, hs]
    · have hs' : stepHalts exec s = false := by
        cases h : stepHalts exec s
        · rfl
        · exact absurd h hs
      simp [runSteps_cons, hs', ih, hs]

/-- The results list is exactly the per-step results of the executed
prefix of the step list, in declaration order. -/
lemma runSteps_results_shape (exec : Step → Bool × String) :
    ∀ steps : List Step,
      (runSteps exec steps).results =
        (steps.take ((runSteps exec steps).results.length)).map (mkResult exec) := by
  intro steps
  induction steps with
  | nil => rfl
  | cons s rest ih =>
    by_cases hs : stepHalts exec s = true
    · simp [runSteps_cons, hs]
    · have hs' : stepHalts exec s = false := by
        cases h : stepHalts exec s
        · rfl
        · exact absurd h hs
      simp only [runSteps_cons, hs', if_false, Bool.false_eq_true, List.length_cons]
      show mkResult exec s :: (runSteps exec rest).results =
        (List.take ((runSteps exec rest).results.length + 1) (s :: rest)).map (mkResult exec)
      rw [List.take_succ_cons, List.map_cons, ← ih]

/-- At most one result per input step. -/
lemma runSteps_length_le (exec : Step → Bool × String) :
    ∀ steps : List Step, (runSteps exec steps).results.length ≤ steps.length := by
  intro steps
  induction steps with
  | nil => simp [runSteps_nil]
  | cons s rest ih =>
    by_cases hs : stepHalts exec s = true
    · simp [runSteps_cons, hs]
    · have hs' : stepHalts exec s = false := by
        cases h : stepHalts exec s
        · rfl
        · exact absurd h hs
      simp only [runSteps_cons, hs', if_false, Bool.false_eq_true, List.length_cons]
      show (runSteps exec rest).results.length + 1 ≤ rest.length + 1
      omega

/-- The invocation trace is the list of step names of the results, in order:
each executed step is invoked exactly once. -/
lemma runTrace_eq (exec : Step → Bool × String) :
    ∀ steps : List Step,
      runTrace exec steps = (runSteps exec steps).results.map StepResult.step_name := by
  intro steps
  induction steps with
  | nil => rfl
  | cons s rest ih =>
    by_cases hs : stepHalts exec s = true
    · simp [runTrace_cons, runSteps_cons, hs, mkResult]
    · have hs' : stepHalts exec s = false := by
        cases h : stepHalts exec s
        · rfl
        · exact absurd h hs
      simp [runTrace_cons, runSteps_cons, hs', ih, mkResult]

/-- Running a longer portion of the list only appends further results:
no result is ever removed or rewritten. -/
lemma runSteps_take_extends (exec : Step → Bool × String) :
    ∀ (steps : List Step) (n : Nat),
      ∃ tail, (runSteps exec steps).results = (runSteps exec (steps.take n)).results ++ tail := by
  intro steps
  induction steps with
  | nil => intro n; exact ⟨[], by simp [runSteps_nil]⟩
  | cons s rest ih =>
    intro n
    match n with
    | 0 => exact ⟨(runSteps exec (s :: rest)).results, by simp [runSteps_nil]⟩
    | Nat.succ m =>
      by_cases hs : stepHalts exec s = true
      · exact ⟨[], by simp [List.take_succ_cons, runSteps_cons, hs]⟩
      · have hs' : stepHalts exec s = false := by
          cases h : stepHalts exec s
          · rfl
          · exact absurd h hs
        obtain ⟨tail, ht⟩ := ih m
        exact ⟨tail, by simp [List.take_succ_cons, runSteps_cons, hs', ht]⟩

/-- The invocation trace is exactly the declaration-order names of the
executed prefix of the step list. -/
lemma runTrace_take (exec : Step → Bool × String) :
    ∀ steps : List Step,
      runTrace exec steps =
        (steps.take ((runSteps exec steps).results.length)).map Step.name := by
  intro steps
  induction steps with
  | nil => rfl
  | cons s rest ih =>
    by_cases hs : stepHalts exec s = true
    · simp [runTrace_cons, runSteps_cons, hs]
    · have hs' : stepHalts exec s = false := by
        cases h : stepHalts exec s
        · rfl
        · exact absurd h hs
      simp only [runTrace_cons, runSteps_cons, hs', if_false, Bool.false_eq_true,
        List.length_cons]
      show s.name :: runTrace exec rest =
        (List.take ((runSteps exec rest).results.length + 1) (s :: rest)).map Step.name
      rw [List.take_succ_cons, List.map_cons, ← ih]

/-- C1: if every step before `s` passes (succeeds or is best-effort, which is
exactly the condition under which execution reaches `s`), `s` fails and `s` is
not best-effort, then the run appends the failed result and returns
immediately: `results` has length `i + 1` (with `i = pre.length` the index of
`s`), `halted_early` is true, and no step after `s` is invoked. -/
theorem sequencer_fail_fast (exec : Step → Bool × String) (pre post : List Step) (s : Step)
    (hpre : ∀ t ∈ pre, stepHalts exec t = false)
    (hfail : (exec s).1 = false) (hbe : s.best_effort = false) :
    runSteps exec (pre ++ s :: post) =
      { results := pre.map (mkResult exec) ++ [mkResult exec s], halted_early := true } ∧
    (runSteps exec (pre ++ s :: post)).results.length = pre.length + 1 ∧
    runTrace exec (pre ++ s :: post) = pre.map Step.name ++ [s.name] := by
  have hhalt : stepHalts exec s = true := by simp [stepHalts, hfail, hbe]
  induction pre with
  | nil =>
    refine ⟨?_, ?_, ?_⟩ <;> simp [runSteps_cons, runTrace_cons, hhalt]
  | cons t pre ih =>
    have ht : stepHalts exec t = false := hpre t (List.mem_cons_self t pre)
    obtain ⟨h1, h2, h3⟩ := ih (fun u hu => hpre u (List.mem_cons_of_mem t hu))
    have hstep : runSteps exec ((t :: pre) ++ s :: post) =
        { results := mkResult exec t :: (runSteps exec (pre ++ s :: post)).results,
          halted_early := (runSteps exec (pre ++ s :: post)).halted_early } := by
      rw [List.cons_append, runSteps_cons, if_neg (by simp [ht])]
    refine ⟨?_, ?_, ?_⟩
    · rw [hstep, h1]
      simp
    · rw [hstep, h1]
      simp
    · rw [List.cons_append, runTrace_cons, if_neg (by simp [ht]), h3]
      simp

/-- C2: the outcome of a best-effort step (such as the source-pull step, the
only best-effort step of the scripts) has no influence on control flow: for
two executors that agree on every non-best-effort step, the run halts (or
not) identically, runs the same number of steps, and invokes the same
commands; a failed best-effort step therefore never sets `halted_early` and
never prevents a later step from running, while its failed result is still
recorded in `results`. -/
theorem best_effort_isolation (exec exec' : Step → Bool × String) (steps : List Step)
    (h : ∀ s ∈ steps, s.best_effort = false → exec' s = exec s) :
    (runSteps exec' steps).halted_early = (runSteps exec steps).halted_early ∧
    (runSteps exec' steps).results.length = (runSteps exec steps).results.length ∧
    runTrace exec' steps = runTrace exec steps := by
  induction steps with
  | nil => exact ⟨rfl, rfl, rfl⟩
  | cons s rest ih =>
    obtain ⟨ih1, ih2, ih3⟩ := ih (fun t ht => h t (List.mem_cons_of_mem s ht))
    by_cases hbe : s.best_effort = true
    · have hs : stepHalts exec s = false := by simp [stepHalts, hbe]
      have hs' : stepHalts exec' s = false := by simp [stepHalts, hbe]
      refine ⟨?_, ?_, ?_⟩ <;>
        simp [runSteps_cons, runTrace_cons, hs, hs', ih1, ih2, ih3]
    · have hbe' : s.best_effort = false := by
        cases hb : s.best_effort
        · rfl
        · exact absurd hb hbe
      have hsame : exec' s = exec s := h s (List.mem_cons_self s rest) hbe'
      have hsh : stepHalts exec' s = stepHalts exec s := by simp [stepHalts, hsame]
      cases hval : stepHalts exec s with
      | true =>
        have hv' : stepHalts exec' s = true := hsh.trans hval
        refine ⟨?_, ?_, ?_⟩ <;> simp [runSteps_cons, runTrace_cons, hval, hv']
      | false =>
        have hv' : stepHalts exec' s = false := hsh.trans hval
        refine ⟨?_, ?_, ?_⟩ <;>
          simp [runSteps_cons, runTrace_cons, hval, hv', ih1, ih2, ih3]

/-- C3: whenever a run reports `halted_early = true`, its results list is
non-empty, the steps decompose around a halting step `s`, the last result is
the result of `s`, that result is failed, and `s` is not best-effort. -/
theorem halted_early_invariant (exec : Step → Bool × String) (steps : List Step)
    (h : (runSteps exec steps).halted_early = true) :
    (runSteps exec steps).results ≠ [] ∧
    ∃ pre post s, steps = pre ++ s :: post ∧
      (runSteps exec steps).results = pre.map (mkResult exec) ++ [mkResult exec s] ∧
      (runSteps exec steps).results.getLast? = some (mkResult exec s) ∧
      (mkResult exec s).succeeded = false ∧ s.best_effort = false := by
  induction steps with
  | nil => simp [runSteps_nil] at h
  | cons s rest ih =>
    by_cases hs : stepHalts exec s = true
    · have hparts : (exec s).1 = false ∧ s.best_effort = false := by
        simpa [stepHalts] using hs
      refine ⟨?_, [], rest, s, rfl, ?_, ?_, ?_, hparts.2⟩ <;>
        simp [runSteps_cons, hs, mkResult, hparts.1]
    · have hs' : stepHalts exec s = false := by
        cases hv : stepHalts exec s
        · rfl
        · exact absurd hv hs
      have hrest : (runSteps exec rest).halted_early = true := by
        simpa [runSteps_cons, hs'] using h
      obtain ⟨hne, pre, post, t, hdecomp, hres, _, hsucc, hbe⟩ := ih hrest
      have hfull : (runSteps exec (s :: rest)).results =
          (mkResult exec s :: pre.map (mkResult exec)) ++ [mkResult exec t] := by
        simp [runSteps_cons, hs', hres]
      refine ⟨?_, s :: pre, post, t, ?_, ?_, ?_, hsucc, hbe⟩
      · rw [hfull]
        simp
      · rw [hdecomp]
        rfl
      · rw [hfull]
        simp
      · rw [hfull, List.getLast?_concat]

/-- C6: if every step succeeds (in particular for the empty sequence), the
run does not halt early, produces one result per input step, and every
result is marked succeeded. -/
theorem all_success_complete (exec : Step → Bool × String) (steps : List Step)
    (h : ∀ s ∈ steps, (exec s).1 = true) :
    (runSteps exec steps).halted_early = false ∧
    (runSteps exec steps).results.length = steps.length ∧
    ∀ r ∈ (runSteps exec steps).results, r.succeeded = true := by
  have hh : ∀ s ∈ steps, stepHalts exec s = false := by
    intro s hs
    simp [stepHalts, h s hs]
  rw [runSteps_no_halt exec steps hh]
  refine ⟨rfl, by simp, ?_⟩
  intro r hr
  simp only [List.mem_map] at hr
  obtain ⟨s, hs, hr⟩ := hr
  rw [← hr]
  simpa [mkResult] using h s hs

/-- C7: the results list is the declaration-order map over the executed
prefix of the step list (so the result of step i precedes that of step j for
i < j), it never exceeds the input length, running more steps only appends
results (append-only, never removed or rewritten), and commands are invoked
strictly in declaration order, one invocation per executed step. -/
theorem declaration_order_append_only (exec : Step → Bool × String) (steps : List Step) :
    (runSteps exec steps).results =
      (steps.take ((runSteps exec steps).results.length)).map (mkResult exec) ∧
    (runSteps exec steps).results.length ≤ steps.length ∧
    (∀ n, ∃ tail,
      (runSteps exec steps).results = (runSteps exec (steps.take n)).results ++ tail) ∧
    runTrace exec steps =
      (steps.take ((runSteps exec steps).results.length)).map Step.name :=
  ⟨runSteps_results_shape exec steps, runSteps_length_le exec steps,
    runSteps_take_extends exec steps, runTrace_take exec steps⟩

/-- Concrete step used by witnesses: an environment check. -/
def wStepA : Step :=
  { name := "check_docker_installed", command := ["docker", "--version"], best_effort := false }

/-- Concrete step used by witnesses: the best-effort source pull. -/
def wStepPull : Step :=
  { name := "pull_latest_code", command := ["git", "pull"], best_effort := true }

/-- Concrete step used by witnesses: container build and start. -/
def wStepBuild : Step :=
  { name := "build_and_start_containers", command := ["docker-compose", "up", "--build", "-d"],
    best_effort := false }

/-- Concrete step used by witnesses: the wait step. -/
def wStepWait : Step :=
  { name := "wait_for_services", command := [], best_effort := false }

/-- Executor where the container start fails and everything else succeeds. -/
def wExecBuildFail : Step → Bool × String :=
  fun s =>
    if s.name = "build_and_start_containers" then (false, "Failed to start containers")
    else (true, "")

/-- Executor where the git pull fails and everything else succeeds. -/
def wExecPullFail : Step → Bool × String :=
  fun s =>
    if s.name = "pull_latest_code" then (false, "fatal: unable to access remote")
    else (true, "")

/-- Executor where every step succeeds. -/
def wExecAllOk : Step → Bool × String := fun _ => (true, "")

/-- Witness for C1 at a concrete four-step sequence whose third step fails. -/
theorem sequencer_fail_fast_witness :
    runSteps wExecBuildFail ([wStepA, wStepPull] ++ wStepBuild :: [wStepWait]) =
      { results := [wStepA, wStepPull].map (mkResult wExecBuildFail) ++
          [mkResult wExecBuildFail wStepBuild],
        halted_early := true } ∧
    (runSteps wExecBuildFail ([wStepA, wStepPull] ++ wStepBuild :: [wStepWait])).results.length =
      [wStepA, wStepPull].length + 1 ∧
    runTrace wExecBuildFail ([wStepA, wStepPull] ++ wStepBuild :: [wStepWait]) =
      [wStepA, wStepPull].map Step.name ++ [wStepBuild.name] :=
  sequencer_fail_fast wExecBuildFail [wStepA, wStepPull] [wStepWait] wStepBuild
    (by decide) (by decide) (by decide)

/-- Witness for C2 at a concrete sequence whose best-effort pull step fails. -/
theorem best_effort_isolation_witness :
    (runSteps wExecPullFail [wStepA, wStepPull, wStepWait]).halted_early =
      (runSteps wExecAllOk [wStepA, wStepPull, wStepWait]).halted_early ∧
    (runSteps wExecPullFail [wStepA, wStepPull, wStepWait]).results.length =
      (runSteps wExecAllOk [wStepA, wStepPull, wStepWait]).results.length ∧
    runTrace wExecPullFail [wStepA, wStepPull, wStepWait] =
      runTrace wExecAllOk [wStepA, wStepPull, wStepWait] :=
  best_effort_isolation wExecAllOk wExecPullFail [wStepA, wStepPull, wStepWait] (by decide)

/-- Witness for C3 at a concrete halted run. -/
theorem halted_early_invariant_witness :
    (runSteps wExecBuildFail [wStepA, wStepBuild]).results ≠ [] ∧
    ∃ pre post s, [wStepA, wStepBuild] = pre ++ s :: post ∧
      (runSteps wExecBuildFail [wStepA, wStepBuild]).results =
        pre.map (mkResult wExecBuildFail) ++ [mkResult wExecBuildFail s] ∧
      (runSteps wExecBuildFail [wStepA, wStepBuild]).results.getLast? =
        some (mkResult wExecBuildFail s) ∧
      (mkResult wExecBuildFail s).succeeded = false ∧ s.best_effort = false :=
  halted_early_invariant wExecBuildFail [wStepA, wStepBuild] (by decide)

/-- Witness for C6 at a concrete all-success run. -/
theorem all_success_complete_witness :
    (runSteps wExecAllOk [wStepA, wStepPull, wStepWait]).halted_early = false ∧
    (runSteps wExecAllOk [wStepA, wStepPull, wStepWait]).results.length =
      [wStepA, wStepPull, wStepWait].length ∧
    ∀ r ∈ (runSteps wExecAllOk [wStepA, wStepPull, wStepWait]).results, r.succeeded = true :=
  all_success_complete wExecAllOk [wStepA, wStepPull, wStepWait] (by decide)

/-! Concrete model of run_docker.py (FrontendDockerSetup), normal startup
mode. Each step method's outcome is supplied by the executor oracle. -/

/-- Step data of FrontendDockerSetup.check_docker. -/
def rd_check_docker_step : Step :=
  { name := "check_docker", command := ["docker", "ps"], best_effort := false }

/-- Step data of FrontendDockerSetup.check_docker_compose. -/
def rd_check_compose_step : Step :=
  { name := "check_docker_compose", command := ["docker-compose", "--version"],
    best_effort := false }

/-- Step data of the git pull inside FrontendDockerSetup.pull_latest_code;
best-effort because its failure is only logged. -/
def rd_git_pull_step : Step :=
  { name := "pull_latest_code", command := ["git", "pull"], best_effort := true }

/-- Step data of FrontendDockerSetup.start_containers. -/
def rd_start_step : Step :=
  { name := "start_containers", command := ["docker-compose", "up", "-d", "--build"],
    best_effort := false }

/-- The step sequence of run_docker.py in normal startup mode. -/
def rd_steps : List Step :=
  [rd_check_docker_step, rd_check_compose_step, rd_git_pull_step, rd_start_step]

/-- FrontendDockerSetup.pull_latest_code: invokes git pull, logs a warning on
failure, and returns True in both branches (the comment in the source reads
"Don" followed by "t fail on this"). -/
def rd_pull_latest_code (exec : Step → Bool × String) : Bool :=
  if (exec rd_git_pull_step).1 then true else true

/-- FrontendDockerSetup.run in normal startup mode (stop and restart flags
both false): fail-fast chain of checks, with the pull result deliberately
ignored. -/
def rd_run (exec : Step → Bool × String) : Bool :=
  if (exec rd_check_docker_step).1 = false then false
  else if (exec rd_check_compose_step).1 = false then false
  else
    let _pull := rd_pull_latest_code exec
    if (exec rd_start_step).1 = false then false
    else true

/-- main of run_docker.py: sys.exit(0 if success else 1). -/
def rd_main_exit (exec : Step → Bool × String) : Nat :=
  if rd_run exec then 0 else 1

/-! Concrete model of setup_and_run_docker.py (DockerComposeRunner). -/

/-- Step data of DockerComposeRunner.check_docker_installed. -/
def sard_check_installed_step : Step :=
  { name := "check_docker_installed", command := ["docker", "--version"], best_effort := false }

/-- Step data of DockerComposeRunner.check_docker_daemon. -/
def sard_check_daemon_step : Step :=
  { name := "check_docker_daemon", command := ["docker", "ps"], best_effort := false }

/-- Step data of DockerComposeRunner.check_docker_compose_installed. -/
def sard_check_compose_step : Step :=
  { name := "check_docker_compose_installed", command := ["docker-compose", "--version"],
    best_effort := false }

/-- Step data of the git pull inside DockerComposeRunner.pull_latest_code;
best-effort because the caller only logs its failure and continues. -/
def sard_pull_step : Step :=
  { name := "pull_latest_code", command := ["git", "pull"], best_effort := true }

/-- Step data of DockerComposeRunner.check_docker_compose_file (file
existence check; no external command). -/
def sard_compose_file_step : Step :=
  { name := "check_docker_compose_file", command := [], best_effort := false }

/-- Step data of DockerComposeRunner.check_backend_dockerfile. -/
def sard_backend_dockerfile_step : Step :=
  { name := "check_backend_dockerfile", command := [], best_effort := false }

/-- Command of build_and_start_containers: "--build" is inserted at index 2
unless no_build is set. -/
def sard_up_command (noBuild : Bool) : List String :=
  if noBuild then ["docker-compose", "up", "-d"]
  else ["docker-compose", "up", "--build", "-d"]

/-- Step data of DockerComposeRunner.build_and_start_containers. -/
def sard_build_start_step (noBuild : Bool) : Step :=
  { name := "build_and_start_containers", command := sard_up_command noBuild,
    best_effort := false }

/-- Step data of the database probe inside wait_for_services; best-effort
because its outcome is only printed. -/
def sard_db_probe_step : Step :=
  { name := "wait_for_services_db",
    command := ["docker-compose", "exec", "-T", "db", "pg_isready", "-U", "postgres"],
    best_effort := true }

/-- Step data of the backend probe inside wait_for_services; best-effort
because its outcome is only printed. -/
def sard_backend_probe_step : Step :=
  { name := "wait_for_services_backend",
    command := ["docker-compose", "exec", "-T", "backend", "wget", "-q", "-O", "-",
      "http://localhost:8080/actuator/health"],
    best_effort := true }

/-- The step sequence of DockerComposeRunner.run_setup_and_start; the pull
step is present only when the pull flag is set. -/
def sard_steps (pull noBuild : Bool) : List Step :=
  [sard_check_installed_step, sard_check_daemon_step, sard_check_compose_step]
    ++ (if pull then [sard_pull_step] else [])
    ++ [sard_compose_file_step, sard_backend_dockerfile_step,
        sard_build_start_step noBuild, sard_db_probe_step, sard_backend_probe_step]

/-- DockerComposeRunner.pull_latest_code: fails when the .git directory is
missing, otherwise reports the git pull outcome. -/
def sard_pull_latest_code (gitExists : Bool) (exec : Step → Bool × String) : Bool :=
  if gitExists = false then false
  else (exec sard_pull_step).1

/-- DockerComposeRunner.wait_for_services: runs the two health probes, only
prints their outcomes, and always returns True. -/
def sard_wait_for_services (exec : Step → Bool × String) : Bool :=
  let _db := (exec sard_db_probe_step).1
  let _backend := (exec sard_backend_probe_step).1
  true

/-- DockerComposeRunner.run_setup_and_start: fail-fast chain; a failed
optional pull is logged ("Continuing without pulling latest code") and
execution continues. -/
def sard_run_setup_and_start (pull noBuild gitExists : Bool)
    (exec : Step → Bool × String) : Bool :=
  if (exec sard_check_installed_step).1 = false then false
  else if (exec sard_check_daemon_step).1 = false then false
  else if (exec sard_check_compose_step).1 = false then false
  else
    let _pull := if pull then sard_pull_latest_code gitExists exec else true
    if (exec sard_compose_file_step).1 = false then false
    else if (exec sard_backend_dockerfile_step).1 = false then false
    else if (exec (sard_build_start_step noBuild)).1 = false then false
    else if sard_wait_for_services exec = false then false
    else true

/-- main of setup_and_run_docker.py, non-stop mode: sys.exit(0 if success
else 1). -/
def sard_main_exit (pull noBuild gitExists : Bool) (exec : Step → Bool × String) : Nat :=
  if sard_run_setup_and_start pull noBuild gitExists exec then 0 else 1

/-! Concrete model of run_docker_prod.py (main). -/

/-- Step data of the docker version check (step 1). -/
def prod_check_version_step : Step :=
  { name := "check_docker_version", command := ["docker", "--version"], best_effort := false }

/-- Step data of the docker daemon check (step 2). -/
def prod_check_daemon_step : Step :=
  { name := "check_docker_daemon", command := ["docker", "ps"], best_effort := false }

/-- Step data of the docker-compose check (step 3). -/
def prod_check_compose_step : Step :=
  { name := "check_docker_compose", command := ["docker-compose", "--version"],
    best_effort := false }

/-- Step data of the docker-compose.prod.yml existence check (step 4). -/
def prod_compose_file_step : Step :=
  { name := "check_compose_file", command := [], best_effort := false }

/-- Step data of the image pull (step 5). -/
def prod_pull_images_step : Step :=
  { name := "pull_images", command := ["docker-compose", "-f", "docker-compose.prod.yml", "pull"],
    best_effort := false }

/-- Step data of the container start (step 6). -/
def prod_up_step : Step :=
  { name := "start_containers",
    command := ["docker-compose", "-f", "docker-compose.prod.yml", "up", "-d"],
    best_effort := false }

/-- Step data of the database health check (step 8); best-effort because its
failure is only printed. -/
def prod_db_ready_step : Step :=
  { name := "check_db_ready",
    command := ["docker-compose", "-f", "docker-compose.prod.yml", "exec", "-T", "db",
      "pg_isready", "-U", "postgres"],
    best_effort := true }

/-- Step data of the backend status check (step 8); best-effort because its
failure is only printed. -/
def prod_backend_status_step : Step :=
  { name := "check_backend_status",
    command := ["docker", "ps", "--filter", "name=intelliquiz_backend", "--format",
      "table \x7b\x7b.Status\x7d\x7d"],
    best_effort := true }

/-- The step sequence of run_docker_prod.py main. -/
def prod_steps : List Step :=
  [prod_check_version_step, prod_check_daemon_step, prod_check_compose_step,
   prod_compose_file_step, prod_pull_images_step, prod_up_step,
   prod_db_ready_step, prod_backend_status_step]

/-- main of run_docker_prod.py: sys.exit(1) at the first failing setup step;
the two health checks only print their outcomes; falls off the end with exit
code 0. -/
def prod_main_exit (exec : Step → Bool × String) : Nat :=
  if (exec prod_check_version_step).1 = false then 1
  else if (exec prod_check_daemon_step).1 = false then 1
  else if (exec prod_check_compose_step).1 = false then 1
  else if (exec prod_compose_file_step).1 = false then 1
  else if (exec prod_pull_images_step).1 = false then 1
  else if (exec prod_up_step).1 = false then 1
  else
    let _db := (exec prod_db_ready_step).1
    let _backend := (exec prod_backend_status_step).1
    0

/-- run_docker.py completes without halting exactly when its three
non-best-effort steps succeed; the git pull outcome is irrelevant. -/
lemma rd_halted_iff (exec : Step → Bool × String) :
    (runSteps exec rd_steps).halted_early = false ↔
      ((exec rd_check_docker_step).1 = true ∧ (exec rd_check_compose_step).1 = true ∧
        (exec rd_start_step).1 = true) := by
  rw [← Bool.not_eq_true, runSteps_halted_iff]
  simp [rd_steps, stepHalts, rd_check_docker_step, rd_check_compose_step,
    rd_git_pull_step, rd_start_step]

/-- run_docker.py exits 0 exactly when its three non-best-effort steps
succeed. -/
lemma rd_exit_iff (exec : Step → Bool × String) :
    rd_main_exit exec = 0 ↔
      ((exec rd_check_docker_step).1 = true ∧ (exec rd_check_compose_step).1 = true ∧
        (exec rd_start_step).1 = true) := by
  cases h1 : (exec rd_check_docker_step).1 <;>
    cases h2 : (exec rd_check_compose_step).1 <;>
      cases h3 : (exec rd_start_step).1 <;>
        simp [rd_main_exit, rd_run, rd_pull_latest_code, h1, h2, h3]

/-- setup_and_run_docker.py completes without halting exactly when its six
non-best-effort steps succeed. -/
lemma sard_halted_iff (pull noBuild : Bool) (exec : Step → Bool × String) :
    (runSteps exec (sard_steps pull noBuild)).halted_early = false ↔
      ((exec sard_check_installed_step).1 = true ∧ (exec sard_check_daemon_step).1 = true ∧
        (exec sard_check_compose_step).1 = true ∧ (exec sard_compose_file_step).1 = true ∧
        (exec sard_backend_dockerfile_step).1 = true ∧
        (exec (sard_build_start_step noBuild)).1 = true) := by
  rw [← Bool.not_eq_true, runSteps_halted_iff]
  cases pull <;>
    simp [sard_steps, stepHalts, sard_check_installed_step, sard_check_daemon_step,
      sard_check_compose_step, sard_pull_step, sard_compose_file_step,
      sard_backend_dockerfile_step, sard_build_start_step, sard_db_probe_step,
      sard_backend_probe_step]

/-- setup_and_run_docker.py exits 0 exactly when its six non-best-effort
steps succeed. -/
lemma sard_exit_iff (pull noBuild gitExists : Bool) (exec : Step → Bool × String) :
    sard_main_exit pull noBuild gitExists exec = 0 ↔
      ((exec sard_check_installed_step).1 = true ∧ (exec sard_check_daemon_step).1 = true ∧
        (exec sard_check_compose_step).1 = true ∧ (exec sard_compose_file_step).1 = true ∧
        (exec sard_backend_dockerfile_step).1 = true ∧
        (exec (sard_build_start_step noBuild)).1 = true) := by
  cases h1 : (exec sard_check_installed_step).1 <;>
    cases h2 : (exec sard_check_daemon_step).1 <;>
      cases h3 : (exec sard_check_compose_step).1 <;>
        cases h4 : (exec sard_compose_file_step).1 <;>
          cases h5 : (exec sard_backend_dockerfile_step).1 <;>
            cases h6 : (exec (sard_build_start_step noBuild)).1 <;>
              simp [sard_main_exit, sard_run_setup_and_start, sard_wait_for_services,
                sard_pull_latest_code, h1, h2, h3, h4, h5, h6]

/-- run_docker_prod.py completes without halting exactly when its six
non-best-effort steps succeed. -/
lemma prod_halted_iff (exec : Step → Bool × String) :
    (runSteps exec prod_steps).halted_early = false ↔
      ((exec prod_check_version_step).1 = true ∧ (exec prod_check_daemon_step).1 = true ∧
        (exec prod_check_compose_step).1 = true ∧ (exec prod_compose_file_step).1 = true ∧
        (exec prod_pull_images_step).1 = true ∧ (exec prod_up_step).1 = true) := by
  rw [← Bool.not_eq_true, runSteps_halted_iff]
  simp [prod_steps, stepHalts, prod_check_version_step, prod_check_daemon_step,
    prod_check_compose_step, prod_compose_file_step, prod_pull_images_step,
    prod_up_step, prod_db_ready_step, prod_backend_status_step]

/-- run_docker_prod.py exits 0 exactly when its six non-best-effort steps
succeed. -/
lemma prod_exit_iff (exec : Step → Bool × String) :
    prod_main_exit exec = 0 ↔
      ((exec prod_check_version_step).1 = true ∧ (exec prod_check_daemon_step).1 = true ∧
        (exec prod_check_compose_step).1 = true ∧ (exec prod_compose_file_step).1 = true ∧
        (exec prod_pull_images_step).1 = true ∧ (exec prod_up_step).1 = true) := by
  cases h1 : (exec prod_check_version_step).1 <;>
    cases h2 : (exec prod_check_daemon_step).1 <;>
      cases h3 : (exec prod_check_compose_step).1 <;>
        cases h4 : (exec prod_compose_file_step).1 <;>
          cases h5 : (exec prod_pull_images_step).1 <;>
            cases h6 : (exec prod_up_step).1 <;>
              simp [prod_main_exit, h1, h2, h3, h4, h5, h6]

/-- C4 (amended): each script exits 0 exactly when the run did not halt
early, i.e. exactly when every non-best-effort step succeeded; a failed
best-effort step (source pull, health probes) leaves the exit code 0 even
though not all results succeeded. -/
theorem exit_zero_iff_not_halted (pull noBuild gitExists : Bool)
    (exec : Step → Bool × String) :
    (rd_main_exit exec = 0 ↔ (runSteps exec rd_steps).halted_early = false) ∧
    (sard_main_exit pull noBuild gitExists exec = 0 ↔
      (runSteps exec (sard_steps pull noBuild)).halted_early = false) ∧
    (prod_main_exit exec = 0 ↔ (runSteps exec prod_steps).halted_early = false) := by
  refine ⟨?_, ?_, ?_⟩
  · rw [rd_exit_iff, rd_halted_iff]
  · rw [sard_exit_iff, sard_halted_iff]
  · rw [prod_exit_iff, prod_halted_iff]

/-- C4 counterexample: with every command succeeding except the git pull,
run_docker.py exits 0 although the pull result is failed, so the exit code
is not 0 exactly when halted_early is false and all results succeeded. -/
theorem exit_code_spec_counterexample :
    ¬(rd_main_exit wExecPullFail = 0 ↔
        ((runSteps wExecPullFail rd_steps).halted_early = false ∧
          ∀ r ∈ (runSteps wExecPullFail rd_steps).results, r.succeeded = true)) := by
  decide

/-! Models of the run_command helpers. A `CmdOutcome` describes what one
subprocess.run invocation did: normal termination with an exit code and
captured streams, a missing executable (FileNotFoundError), or some other
raised exception. -/

/-- Outcome of one subprocess invocation. -/
inductive CmdOutcome where
  | exited (code : Nat) (stdout stderr : String)
  | notFound
  | raised (msg : String)
deriving DecidableEq

/-- True for the two step-level error kinds of the spec: a non-zero exit
status (StepExecutionFailed) and a missing executable (StepNotFound). -/
def errKind : CmdOutcome → Bool
  | .exited code _ _ => code != 0
  | .notFound => true
  | .raised _ => false

/-- True only for outcomes outside the command-execution facility of the
spec (some other raised exception). -/
def isRaised : CmdOutcome → Bool
  | .raised _ => true
  | _ => false

/-- Text of str(CalledProcessError) for a non-zero exit status; the quoting
detail of the Python repr of the argument list is elided. -/
def cpe_str (command : List String) (code : Nat) : String :=
  "Command [" ++ String.intercalate ", " command ++ "] returned non-zero exit status "
    ++ toString code ++ "."

/-- run_command of run_docker.py: with capture, check=False and success is
returncode == 0 with stdout+stderr as output; without capture, check=True
and the CalledProcessError is caught by the bare except Exception clause;
FileNotFoundError gives "(command[0]) not found"; any other exception gives
its str. Always returns a pair, never re-raises. -/
def rd_run_command (command : List String) (capture : Bool) (o : CmdOutcome) : Bool × String :=
  if capture then
    match o with
    | .exited code out err => (code == 0, out ++ err)
    | .notFound => (false, command.headD "" ++ " not found")
    | .raised msg => (false, msg)
  else
    match o with
    | .exited code _ _ =>
      if code == 0 then (true, "") else (false, cpe_str command code)
    | .notFound => (false, command.headD "" ++ " not found")
    | .raised msg => (false, msg)

/-- run_command of setup_and_run_docker.py: same structure as run_docker.py
with the message "Command not found: (command[0])" for a missing executable;
CalledProcessError and any other exception are caught and give str(e). -/
def sard_run_command (command : List String) (capture_output : Bool) (o : CmdOutcome) :
    Bool × String :=
  if capture_output then
    match o with
    | .exited code out err => (code == 0, out ++ err)
    | .notFound => (false, "Command not found: " ++ command.headD "")
    | .raised msg => (false, msg)
  else
    match o with
    | .exited code _ _ =>
      if code == 0 then (true, "") else (false, cpe_str command code)
    | .notFound => (false, "Command not found: " ++ command.headD "")
    | .raised msg => (false, msg)

/-- run_command of script/run_backend.py: identical handling to
setup_and_run_docker.py; the show_output argument is unused by the source. -/
def rb_run_command (command : List String) (capture_output show_output : Bool)
    (o : CmdOutcome) : Bool × String :=
  if capture_output then
    match o with
    | .exited code out err => (code == 0, out ++ err)
    | .notFound => (false, "Command not found: " ++ command.headD "")
    | .raised msg => (false, msg)
  else
    match o with
    | .exited code _ _ =>
      if code == 0 then (true, "") else (false, cpe_str command code)
    | .notFound => (false, "Command not found: " ++ command.headD "")
    | .raised msg => (false, msg)

/-- run_command of script/setup_postgresql.py: identical handling to
setup_and_run_docker.py; the show_output argument is unused by the source. -/
def sp_run_command (command : List String) (capture_output show_output : Bool)
    (o : CmdOutcome) : Bool × String :=
  if capture_output then
    match o with
    | .exited code out err => (code == 0, out ++ err)
    | .notFound => (false, "Command not found: " ++ command.headD "")
    | .raised msg => (false, msg)
  else
    match o with
    | .exited code _ _ =>
      if code == 0 then (true, "") else (false, cpe_str command code)
    | .notFound => (false, "Command not found: " ++ command.headD "")
    | .raised msg => (false, msg)

/-- run_command of run_docker_prod.py: capture_output=True with check=True;
success returns stdout, a non-zero exit is caught as CalledProcessError and
returns e.stderr, a missing executable returns a message; it catches nothing
else, so any other exception propagates to the caller (modelled as
Except.error). -/
def prod_run_command (cmd : List String) (o : CmdOutcome) : Except String (Bool × String) :=
  match o with
  | .exited code out err => if code == 0 then .ok (true, out) else .ok (false, err)
  | .notFound => .ok (false, "Command not found: " ++ cmd.headD "")
  | .raised msg => .error msg

/-- run_command of push_to_docker_hub.py: prints the description and returns
only a boolean; CalledProcessError and FileNotFoundError give False, any
other exception propagates. -/
def push_run_command (cmd : List String) (description : String) (o : CmdOutcome) :
    Except String Bool :=
  match o with
  | .exited code _ _ => if code == 0 then .ok true else .ok false
  | .notFound => .ok false
  | .raised msg => .error msg

/-- C9: each of the four run_command helpers with a broad except clause is
total over subprocess outcomes, always returning a (success, output) pair;
the pair is successful exactly on a zero exit status, so a missing
executable, a non-zero exit status and any other raised exception all come
back as (false, message) and no exception escapes to the caller. -/
theorem run_command_total (command : List String) (capture show_output : Bool)
    (o : CmdOutcome) :
    ((rd_run_command command capture o).1 = true ↔ ∃ out err, o = .exited 0 out err) ∧
    ((sard_run_command command capture o).1 = true ↔ ∃ out err, o = .exited 0 out err) ∧
    ((rb_run_command command capture show_output o).1 = true ↔
      ∃ out err, o = .exited 0 out err) ∧
    ((sp_run_command command capture show_output o).1 = true ↔
      ∃ out err, o = .exited 0 out err) := by
  cases o <;> cases capture <;>
    simp [rd_run_command, sard_run_command, rb_run_command, sp_run_command] <;>
      rename_i code out err <;> cases hc : (code == 0) <;> simp_all

/-- C5: a step produces exactly the two spec error kinds. Both a non-zero
exit status (StepExecutionFailed) and a missing executable (StepNotFound)
propagate as a failed result rather than an exception, in every run_command
variant; among the outcomes of the command-execution facility, a failed
result arises exactly from those two kinds; and the sequencer invokes the
command of each executed step exactly once, in order, so no step is ever
retried. -/
theorem step_error_kinds (cmd : List String) (capture : Bool) (description : String)
    (o : CmdOutcome) :
    (errKind o = true →
      (rd_run_command cmd capture o).1 = false ∧
      (∃ s, prod_run_command cmd o = Except.ok (false, s)) ∧
      push_run_command cmd description o = Except.ok false) ∧
    (isRaised o = false → ((rd_run_command cmd capture o).1 = false ↔ errKind o = true)) ∧
    (∀ (exec : Step → Bool × String) (steps : List Step),
      runTrace exec steps =
        (steps.take ((runSteps exec steps).results.length)).map Step.name) := by
  refine ⟨?_, ?_, fun exec steps => runTrace_take exec steps⟩
  · intro herr
    cases o with
    | exited code out err =>
      have hc : (code == 0) = false := by
        simpa [errKind] using herr
      cases capture <;>
        simp [rd_run_command, prod_run_command, push_run_command, hc]
    | notFound =>
      cases capture <;>
        simp [rd_run_command, prod_run_command, push_run_command]
    | raised msg => simp [errKind] at herr
  · intro hr
    cases o with
    | exited code out err =>
      cases capture <;> cases hc : (code == 0) <;>
        simp [rd_run_command, errKind, hc] <;> simpa using hc
    | notFound =>
      cases capture <;> simp [rd_run_command, errKind]
    | raised msg => simp [isRaised] at hr

/-- Witness for C5 at a concrete missing executable. -/
theorem step_error_kinds_witness :
    (rd_run_command ["docker", "ps"] true CmdOutcome.notFound).1 = false ∧
    (∃ s, prod_run_command ["docker", "ps"] CmdOutcome.notFound = Except.ok (false, s)) ∧
    push_run_command ["docker", "ps"] "Docker daemon check" CmdOutcome.notFound =
      Except.ok false :=
  (step_error_kinds ["docker", "ps"] true "Docker daemon check" CmdOutcome.notFound).1
    (by decide)

/-! Model of PostgreSQLSetup.save_configuration (script/setup_postgresql.py):
the files it writes, as (path, content) pairs. -/

/-- Database configuration held by PostgreSQLSetup, in constructor order. -/
structure DBConfig where
  db_name : String
  db_user : String
  db_password : String
  db_host : String
  db_port : Nat
deriving DecidableEq

/-- The DATABASE_URL entry of the configuration dictionary. -/
def database_url (c : DBConfig) : String :=
  "postgresql://" ++ c.db_user ++ ":" ++ c.db_password ++ "@" ++ c.db_host ++ ":"
    ++ toString c.db_port ++ "/" ++ c.db_name

/-- The configuration dictionary written by save_configuration, in insertion
order; the port is rendered as its decimal text. -/
def config_items (c : DBConfig) : List (String × String) :=
  [("DATABASE_HOST", c.db_host),
   ("DATABASE_PORT", toString c.db_port),
   ("DATABASE_NAME", c.db_name),
   ("DATABASE_USER", c.db_user),
   ("DATABASE_PASSWORD", c.db_password),
   ("DATABASE_URL", database_url c)]

/-- Content written to .env.local: two comment lines, a blank line, then one
KEY=value line per entry. -/
def env_file_content (c : DBConfig) : String :=
  "# IntelliQuiz Database Configuration\n# Auto-generated by setup_postgresql.py\n\n"
    ++ String.join ((config_items c).map (fun kv => kv.1 ++ "=" ++ kv.2 ++ "\n"))

/-- JSON string quoting (escaping of embedded quotes elided). -/
def json_quote (s : String) : String := "\"" ++ s ++ "\""

/-- Content written to .env.local.json: json.dump of the dictionary with
indent 2; the port is a JSON number, every other value a JSON string. -/
def json_file_content (c : DBConfig) : String :=
  "\x7b\n"
    ++ "  " ++ (json_quote "DATABASE_HOST") ++ ": " ++ (json_quote c.db_host) ++ ",\n"
    ++ "  " ++ (json_quote "DATABASE_PORT") ++ ": " ++ toString c.db_port ++ ",\n"
    ++ "  " ++ (json_quote "DATABASE_NAME") ++ ": " ++ (json_quote c.db_name) ++ ",\n"
    ++ "  " ++ (json_quote "DATABASE_USER") ++ ": " ++ (json_quote c.db_user) ++ ",\n"
    ++ "  " ++ (json_quote "DATABASE_PASSWORD") ++ ": " ++ (json_quote c.db_password) ++ ",\n"
    ++ "  " ++ (json_quote "DATABASE_URL") ++ ": " ++ (json_quote (database_url c)) ++ "\n"
    ++ "\x7d"

/-- PostgreSQLSetup.save_configuration: the list of (path, content) file
writes it performs, in order: the .env.local file and then the JSON mirror
.env.local.json. -/
def save_configuration (c : DBConfig) : List (String × String) :=
  [(".env.local", env_file_content c), (".env.local.json", json_file_content c)]

/-- The default configuration of setup_postgresql.py main. -/
def default_db_config : DBConfig :=
  { db_name := "intelliquiz", db_user := "postgres", db_password := "postgres",
    db_host := "localhost", db_port := 5432 }

/-- C8 counterexample: at the default configuration, save_configuration
writes two files, not at most one. -/
theorem single_env_file_counterexample :
    ¬((save_configuration default_db_config).length ≤ 1) := by
  decide

/-- C8 (amended): the save-configuration step of the PostgreSQL setup is the
only persistence point, and it writes exactly two files, .env.local and its
JSON mirror .env.local.json, holding the same configuration. -/
theorem save_configuration_writes_two_files (c : DBConfig) :
    (save_configuration c).map Prod.fst = [".env.local", ".env.local.json"] ∧
    (save_configuration c).length = 2 :=
  ⟨rfl, rfl⟩

/-! Model of BackendRunner.find_jar_file (script/run_backend.py). A
directory is a list of entries with a name and a modification time; the
timestamp is modelled as a natural number, keeping only its ordering. -/

/-- A filesystem entry of the backend target directory. -/
structure FileEntry where
  name : String
  mtime : Nat
deriving DecidableEq

/-- The name ends in ".jar" (the glob pattern star-dot-jar), tested on the
character list of the name. -/
def has_jar_suffix (s : String) : Bool :=
  ".jar".data.isSuffixOf s.data

/-- The name starts with "original-" (Python str.startswith), tested on the
character list of the name. -/
def has_original_marker (s : String) : Bool :=
  "original-".data.isPrefixOf s.data

/-- target_dir.glob of the pattern star-dot-jar: entries whose name ends in
".jar". -/
def jar_glob (entries : List FileEntry) : List FileEntry :=
  entries.filter (fun f => has_jar_suffix f.name)

/-- The jar_files list comprehension: glob results whose name does not start
with "original-". -/
def eligible_jars (entries : List FileEntry) : List FileEntry :=
  (jar_glob entries).filter (fun f => !(has_original_marker f.name))

/-- Python max with the mtime key: scan the list and replace the current
maximum only on a strictly greater key, so the first maximum wins ties. -/
def latest_by_mtime (x : FileEntry) (xs : List FileEntry) : FileEntry :=
  xs.foldl (fun best g => if best.mtime < g.mtime then g else best) x

/-- BackendRunner.find_jar_file: None when the target directory is missing
or no eligible jar exists, otherwise the eligible jar with the greatest
modification time. -/
def find_jar_file (target_dir : Option (List FileEntry)) : Option FileEntry :=
  match target_dir with
  | none => none
  | some entries =>
    match eligible_jars entries with
    | [] => none
    | x :: xs => some (latest_by_mtime x xs)

lemma latest_by_mtime_cons (x f : FileEntry) (xs : List FileEntry) :
    latest_by_mtime x (f :: xs) =
      latest_by_mtime (if x.mtime < f.mtime then f else x) xs := rfl

/-- The selected entry is the seed or one of the scanned entries. -/
lemma latest_by_mtime_mem :
    ∀ (xs : List FileEntry) (x : FileEntry),
      latest_by_mtime x xs = x ∨ latest_by_mtime x xs ∈ xs := by
  intro xs
  induction xs with
  | nil => intro x; left; rfl
  | cons f xs ih =>
    intro x
    rw [latest_by_mtime_cons]
    rcases ih (if x.mtime < f.mtime then f else x) with h | h
    · by_cases hx : x.mtime < f.mtime
      · right
        rw [h, if_pos hx]
        exact List.mem_cons_self f xs
      · left
        rw [h, if_neg hx]
    · right
      exact List.mem_cons_of_mem f h

/-- The selected entry has the greatest modification time among the seed and
the scanned entries. -/
lemma latest_by_mtime_ge :
    ∀ (xs : List FileEntry) (x g : FileEntry),
      (g = x ∨ g ∈ xs) → g.mtime ≤ (latest_by_mtime x xs).mtime := by
  intro xs
  induction xs with
  | nil =>
    intro x g hg
    rcases hg with rfl | h
    · exact le_refl _
    · cases h
  | cons f xs ih =>
    intro x g hg
    rw [latest_by_mtime_cons]
    set y := if x.mtime < f.mtime then f else x with hy
    have hxy : x.mtime ≤ y.mtime := by
      rw [hy]
      split
      · omega
      · exact le_refl _
    have hfy : f.mtime ≤ y.mtime := by
      rw [hy]
      split
      · exact le_refl _
      · omega
    rcases hg with rfl | hg
    · exact le_trans hxy (ih y y (Or.inl rfl))
    · rcases List.mem_cons.mp hg with rfl | hg
      · exact le_trans hfy (ih y y (Or.inl rfl))
      · exact ih y g (Or.inr hg)

/-- C10: find_jar_file returns None exactly when the target directory does
not exist or holds no .jar entry whose name avoids the "original-" marker;
otherwise it returns an eligible jar whose modification time is greatest
among the eligible jars. -/
theorem find_jar_file_classification (target_dir : Option (List FileEntry)) :
    (find_jar_file target_dir = none ↔
      (target_dir = none ∨
        ∃ entries, target_dir = some entries ∧ eligible_jars entries = [])) ∧
    (∀ entries f, target_dir = some entries → find_jar_file target_dir = some f →
      f ∈ eligible_jars entries ∧ ∀ g ∈ eligible_jars entries, g.mtime ≤ f.mtime) := by
  cases target_dir with
  | none =>
    constructor
    · simp [find_jar_file]
    · intro entries f h
      exact Option.noConfusion h
  | some entries =>
    constructor
    · cases he : eligible_jars entries with
      | nil => simp [find_jar_file, he]
      | cons x xs => simp [find_jar_file, he]
    · intro entries' f hsome hfind
      obtain rfl : entries = entries' := Option.some.inj hsome
      cases he : eligible_jars entries with
      | nil => simp [find_jar_file, he] at hfind
      | cons x xs =>
        have hf : latest_by_mtime x xs = f := by
          simpa [find_jar_file, he] using hfind
        constructor
        · rw [← hf]
          rcases latest_by_mtime_mem xs x with h | h
          · rw [h]
            exact List.mem_cons_self x xs
          · exact List.mem_cons_of_mem x h
        · intro g hg
          rw [← hf]
          apply latest_by_mtime_ge xs x
          rcases List.mem_cons.mp hg with rfl | h
          · exact Or.inl rfl
          · exact Or.inr h

/-- Concrete target directory listing used by the C10 witness. -/
def jar_dir_example : List FileEntry :=
  [{ name := "original-app.jar", mtime := 30 },
   { name := "app-1.0.jar", mtime := 10 },
   { name := "notes.txt", mtime := 99 },
   { name := "app-2.0.jar", mtime := 20 }]

/-- Witness for C10 at a concrete directory listing. -/
theorem find_jar_file_classification_witness :
    ({ name := "app-2.0.jar", mtime := 20 } : FileEntry) ∈ eligible_jars jar_dir_example ∧
    ∀ g ∈ eligible_jars jar_dir_example,
      g.mtime ≤ ({ name := "app-2.0.jar", mtime := 20 } : FileEntry).mtime :=
  (find_jar_file_classification (some jar_dir_example)).2 jar_dir_example
    { name := "app-2.0.jar", mtime := 20 } rfl (by decide)

end CacheIn
